import Mathlib

/-!
Verification development for the 3D_Tiles_Processing repository.

Byte buffers are modelled as `List Nat` (each entry one byte).  Header
integers are modelled as `Int` because the source reads them with
`Buffer.readInt32LE`, which is a signed little-endian read.
-/

namespace TilesProc

/-- Unsigned little-endian 32-bit value assembled from four bytes of `b`
starting at `off` (0 when fewer than four bytes remain; every use in the
development is guarded by a length check, mirroring `Buffer.readInt32LE`'s
bounds check which throws on short buffers). -/
def readUInt32LE (b : List Nat) (off : Nat) : Nat :=
  match b.drop off with
  | b0 :: b1 :: b2 :: b3 :: _ => b0 + 256 * b1 + 65536 * b2 + 16777216 * b3
  | _ => 0

/-- Reinterpret an unsigned 32-bit value as a signed (two's complement) one. -/
def toSigned32 (u : Nat) : Int :=
  if u < 2147483648 then (u : Int) else (u : Int) - 4294967296

/-- `Buffer.readInt32LE(off)`: signed little-endian 32-bit read. -/
def readInt32LE (b : List Nat) (off : Nat) : Int :=
  toSigned32 (readUInt32LE b off)

/-- `Buffer.writeInt32LE(v)`: the four little-endian bytes of `v`'s
two's-complement representation. -/
def writeInt32LE (v : Int) : List Nat :=
  let u := (v % 4294967296).toNat
  [u % 256, u / 256 % 256, u / 65536 % 256, u / 16777216 % 256]

/-- `Uint8Array.prototype.subarray(i, j)`: negative indices count from the
end of the buffer, indices are clamped to the buffer, and an inverted range
yields the empty view. -/
def subarray (b : List Nat) (i j : Int) : List Nat :=
  let len : Int := b.length
  let lo := if i < 0 then max (len + i) 0 else min i len
  let hi := if j < 0 then max (len + j) 0 else min j len
  (b.drop lo.toNat).take (hi - lo).toNat

/-- `Buffer.concat(parts, total)`: the concatenation truncated or
zero-padded to exactly `total` bytes. -/
def bufConcat (l : List Nat) (total : Nat) : List Nat :=
  l.take total ++ List.replicate (total - l.length) 0

/-- The seven-field b3dm container header, in source field order
(`compress.js` lines 63–69). -/
structure B3dmHeader where
  magic : Int
  version : Int
  byteLength : Int
  featureTableJSONByteLength : Int
  featureTableBinaryByteLength : Int
  batchTableJSONByteLength : Int
  batchTableBinaryByteLength : Int
deriving Repr, DecidableEq

/-- The header reads of `compress.js` lines 63–69 / `app-02.js` lines 53–58. -/
def readB3dmHeader (b : List Nat) : B3dmHeader :=
  { magic := readInt32LE b 0
    version := readInt32LE b 4
    byteLength := readInt32LE b 8
    featureTableJSONByteLength := readInt32LE b 12
    featureTableBinaryByteLength := readInt32LE b 16
    batchTableJSONByteLength := readInt32LE b 20
    batchTableBinaryByteLength := readInt32LE b 24 }

/-- Result of pulling apart a b3dm container: the header, the offsets the
source computes, and the three byte segments it slices out. -/
structure B3dmDecoded where
  header : B3dmHeader
  featureTableStart : Int
  featureTableLength : Int
  batchTableStart : Int
  batchTableLength : Int
  glbStart : Int
  featureTable : List Nat
  batchTable : List Nat
  glbBytes : List Nat
deriving Repr, DecidableEq

/-- Container decoding as done inline in `compress.js` lines 61–80 (and
`app-02.js` lines 53–69): read the seven header fields, compute the table
offsets, and slice the three segments with `subarray`.  `none` models the
`ERR_OUT_OF_RANGE` throw of `readInt32LE(24)` on a buffer shorter than 28
bytes; no other input is rejected. -/
def decodeB3dm (b : List Nat) : Option B3dmDecoded :=
  if b.length < 28 then none else
  let h := readB3dmHeader b
  let featureTableStart : Int := 28
  let featureTableLength :=
    h.featureTableJSONByteLength + h.featureTableBinaryByteLength
  let batchTableStart :=
    featureTableStart + h.featureTableJSONByteLength + h.featureTableBinaryByteLength
  let batchTableLength :=
    h.batchTableJSONByteLength + h.batchTableBinaryByteLength
  let glbStart := batchTableStart + batchTableLength
  some
    { header := h
      featureTableStart := featureTableStart
      featureTableLength := featureTableLength
      batchTableStart := batchTableStart
      batchTableLength := batchTableLength
      glbStart := glbStart
      featureTable := subarray b featureTableStart (featureTableStart + featureTableLength)
      batchTable := subarray b batchTableStart (batchTableStart + batchTableLength)
      glbBytes := subarray b glbStart h.byteLength }

/-- The worker variant of the payload slice (`part_001` lines 157–158):
`glbStart` is computed from the four table lengths and the slice runs to the
physical end of the buffer — `byteLength` is never consulted.  `none` again
models the short-buffer read throw. -/
def workerGlbBytes (b : List Nat) : Option (List Nat) :=
  if b.length < 28 then none else
  let glbStart := 28 + readInt32LE b 12 + readInt32LE b 16 +
    readInt32LE b 20 + readInt32LE b 24
  some (subarray b glbStart b.length)

/-- Container re-assembly, `compress.js` lines 86–97: recompute
`totalLength` from the header's table-length fields and the actual payload
length, write a fresh 28-byte header carrying the six non-total fields
unchanged, and concatenate header, feature table, batch table and payload,
truncated/padded to `totalLength`. -/
def encodeB3dm (h : B3dmHeader) (featureTable batchTable glb : List Nat) : List Nat :=
  let featureTableLength :=
    h.featureTableJSONByteLength + h.featureTableBinaryByteLength
  let batchTableLength :=
    h.batchTableJSONByteLength + h.batchTableBinaryByteLength
  let totalLength : Int := 28 + featureTableLength + batchTableLength + (glb.length : Int)
  let header := writeInt32LE h.magic ++ writeInt32LE h.version ++
    writeInt32LE totalLength ++
    writeInt32LE h.featureTableJSONByteLength ++
    writeInt32LE h.featureTableBinaryByteLength ++
    writeInt32LE h.batchTableJSONByteLength ++
    writeInt32LE h.batchTableBinaryByteLength
  bufConcat (header ++ featureTable ++ batchTable ++ glb) totalLength.toNat

/-! ## Texture container (KTX) inspection, `part_001` lines 101–129 -/

/-- The 12-byte "KTX 11" identifier (`KTX_IDENTIFIERS[0]`). -/
def KTX1_IDENTIFIER : List Nat :=
  [0xAB, 0x4B, 0x54, 0x58, 0x20, 0x31, 0x31, 0xBB, 0x0D, 0x0A, 0x1A, 0x0A]

/-- The 12-byte "KTX 20" identifier (`KTX_IDENTIFIERS[1]`). -/
def KTX2_IDENTIFIER : List Nat :=
  [0xAB, 0x4B, 0x54, 0x58, 0x20, 0x32, 0x30, 0xBB, 0x0D, 0x0A, 0x1A, 0x0A]

/-- The comparison loop of `parseKTXHeader`: `buffer[i] === id[i]` for
`i = 0..11`.  An out-of-range JavaScript index reads `undefined`, which is
unequal to every byte; `getD i 256` models that (no identifier byte is 256). -/
def identifierMatch (idBytes b : List Nat) : Bool :=
  (List.range 12).all fun i => b.getD i 256 == idBytes.getD i 256

/-- `DataView.getUint32(off, true)`: little-endian read that throws
(`none`) when fewer than four bytes are available at `off`. -/
def getUint32 (b : List Nat) (off : Nat) : Option Nat :=
  if off + 4 ≤ b.length then some (readUInt32LE b off) else none

/-- `parseKTXHeader` (`part_001` lines 101–129): match the first 12 bytes
against the two identifiers; on a KTX1 match read width/height at offsets
36/40, on a KTX2 match at offsets 20/24, otherwise return `null`
(`.ok none`).  `.error ()` models the `DataView` range throw on a matching
but too-short buffer. -/
def parseKTXHeader (b : List Nat) : Except Unit (Option (Nat × Nat)) :=
  if identifierMatch KTX1_IDENTIFIER b then
    match getUint32 b 36, getUint32 b 40 with
    | some w, some h => .ok (some (w, h))
    | _, _ => .error ()
  else if identifierMatch KTX2_IDENTIFIER b then
    match getUint32 b 20, getUint32 b 24 with
    | some w, some h => .ok (some (w, h))
    | _, _ => .error ()
  else .ok none

/-! ## Substring search (JavaScript `String.prototype.includes`) -/

/-- `s.includes(pat)` on character lists. -/
def containsSeq (pat : List Char) : List Char → Bool
  | [] => pat.isEmpty
  | c :: rest => pat.isPrefixOf (c :: rest) || containsSeq pat rest

/-! ## Optimization inspector and planner, `part_001` lines 16–53 & 170–187 -/

/-- A texture as the inspector sees it: its declared MIME type, if any.
In `getTextureInfo` (`part_001` lines 55–99) the final `encoding` value is
fully determined by the MIME type: the image-header branch can only yield
`'KTX'` when the MIME type contains `"ktx"`, in which case the MIME branch
(lines 92–96) assigns `'KTX'` anyway, and with no MIME type the encoding
stays `'unknown'`. -/
structure SceneTexture where
  mimeType : Option (List Char)
deriving Repr, DecidableEq

/-- The scene facts the inspector consumes: the declared extension-usage
list and the textures. -/
structure Scene where
  extensionsUsed : List (List Char)
  textures : List SceneTexture
deriving Repr, DecidableEq

def dracoExtensionName : List Char := "KHR_draco_mesh_compression".toList

def ktxFormat : List Char := "KTX".toList

/-- The `encoding` computed by `getTextureInfo` (`part_001` lines 92–96):
`jpeg` before `png` before `ktx`, substring matches on the MIME type,
`'unknown'` otherwise. -/
def textureEncoding (mimeType : Option (List Char)) : List Char :=
  match mimeType with
  | none => "unknown".toList
  | some m =>
    if containsSeq "jpeg".toList m then "JPG".toList
    else if containsSeq "png".toList m then "PNG".toList
    else if containsSeq "ktx".toList m then ktxFormat
    else "unknown".toList

/-- The per-model statistics the planner consumes (`getModelStatistics`,
`part_001` lines 16–53, restricted to the fields the planner reads). -/
structure ModelStats where
  dracoCompression : Bool
  textureFormats : List (List Char)
deriving Repr, DecidableEq

/-- `getModelStatistics` (`part_001` lines 16–53): `dracoCompression` is
set when any used extension is named `KHR_draco_mesh_compression`; each
texture contributes its `encoding`. -/
def getModelStatistics (s : Scene) : ModelStats :=
  { dracoCompression := s.extensionsUsed.any (· == dracoExtensionName)
    textureFormats := s.textures.map fun t => textureEncoding t.mimeType }

/-- The two optimization steps the worker can plan. -/
inductive TransformStep where
  | toktx
  | draco
deriving Repr, DecidableEq, BEq

/-- The two requested options passed to `compress` (`part_001` line 144). -/
structure CompressOptions where
  dracoCompression : Bool
  ktx : Bool
deriving Repr, DecidableEq

/-- The transform selection of `compress` (`part_001` lines 170–184): a
`toktx` step when KTX is requested and no texture already has format
`'KTX'`, then a `draco` step when Draco is requested and the model is not
already Draco-compressed. -/
def planTransforms (stats : ModelStats) (o : CompressOptions) : List TransformStep :=
  let hasKTXTexture := stats.textureFormats.any (· == ktxFormat)
  (if o.ktx && !hasKTXTexture then [TransformStep.toktx] else []) ++
    (if o.dracoCompression && !stats.dracoCompression then [TransformStep.draco] else [])

/-- Modelled from the spec: the effect on the scene state of the external
scene-transform pipeline (`document.transform` with `toktx` / `draco`,
which the repository consumes as a black box).  Per the spec's glossary,
texture compression re-encodes every texture into the target compressed
container (its MIME type becomes `image/ktx2`), and mesh compression makes
the scene declare the mesh-compression extension identifier. -/
def applyTransform (s : Scene) : TransformStep → Scene
  | .toktx => { s with textures := s.textures.map fun _ => ⟨some "image/ktx2".toList⟩ }
  | .draco => { s with extensionsUsed := s.extensionsUsed ++ [dracoExtensionName] }

/-- Apply a plan's steps in order. -/
def applyPlan (s : Scene) (steps : List TransformStep) : Scene :=
  steps.foldl applyTransform s

/-! ## Batch scheduler, `compress_with_stats-main.js` lines 31–95 -/

/-- Outcome tag of one per-file job (the free-text completion message,
abstracted to the `JobResult` outcome it reports). -/
inductive JobOutcome where
  | succeeded
  | skipped
  | failed
deriving Repr, DecidableEq, BEq

/-- Scheduler state: `completedTasks` is the source's dispatch counter
(incremented when a file is handed to a child process), `activeProcesses`
the number of outstanding children, `results` the completion messages in
arrival order, and `finished` whether `finishProcessing` has run. -/
structure SchedulerState where
  completedTasks : Nat
  activeProcesses : Nat
  results : List JobOutcome
  finished : Bool
deriving Repr, DecidableEq

/-- `runNextBatch` (lines 39–44): dispatch files while a CPU slot is free
and files remain; net effect of the `while` loop. -/
def runNextBatch (totalFiles numCPUs : Nat) (s : SchedulerState) : SchedulerState :=
  let n := min (numCPUs - s.activeProcesses) (totalFiles - s.completedTasks)
  { s with completedTasks := s.completedTasks + n
           activeProcesses := s.activeProcesses + n }

/-- `handleCompletion` (lines 66–74): record the arrived result, and either
declare the run finished (all files dispatched and none active) or refill
the pool. -/
def handleCompletion (totalFiles numCPUs : Nat) (s : SchedulerState) (o : JobOutcome) :
    SchedulerState :=
  let s1 : SchedulerState :=
    { s with activeProcesses := s.activeProcesses - 1, results := s.results ++ [o] }
  if s1.completedTasks = totalFiles ∧ s1.activeProcesses = 0 then { s1 with finished := true }
  else if s1.activeProcesses < numCPUs then runNextBatch totalFiles numCPUs s1
  else s1

/-- A whole scheduler run (`processFiles`, lines 31–95): the initial
`runNextBatch`, then one `handleCompletion` per completion signal, in
arrival order.  Each dispatched child signals completion exactly once
(via its `message` or `error` handler). -/
def processFiles (totalFiles numCPUs : Nat) (arrivals : List JobOutcome) : SchedulerState :=
  arrivals.foldl (handleCompletion totalFiles numCPUs)
    (runNextBatch totalFiles numCPUs ⟨0, 0, [], false⟩)

/-! ## Manifest rewriter, `compress_with_stats-main.js` lines 162–175 -/

/-- The stale pattern of the regex `/\.b3dm/g`. -/
def b3dmPat : List Char := ['.', 'b', '3', 'd', 'm']

/-- The replacement `'.glb'`. -/
def glbRepl : List Char := ['.', 'g', 'l', 'b']

/-- `s.replace(/\.b3dm/g, '.glb')`: leftmost non-overlapping global
replacement of every occurrence of `.b3dm`. -/
def replaceB3dm : List Char → List Char
  | [] => []
  | c :: cs =>
    if b3dmPat.isPrefixOf (c :: cs) then glbRepl ++ replaceB3dm (cs.drop 4)
    else c :: replaceB3dm cs
termination_by s => s.length
decreasing_by
  all_goals simp [List.length_drop]
  omega

/-- A JSON-like manifest tree node. -/
inductive ManifestNode where
  | str (s : List Char)
  | num (n : Int)
  | boolean (b : Bool)
  | null
  | arr (items : List ManifestNode)
  | obj (fields : List (String × ManifestNode))

mutual

/-- `replaceB3dmWithGlb` (`compress_with_stats-main.js` lines 162–175):
strings get the global `.b3dm` → `.glb` replacement, arrays are mapped
element-wise, objects are rewritten value-by-value under the same keys,
everything else passes through unchanged. -/
def replaceB3dmWithGlb : ManifestNode → ManifestNode
  | .str s => .str (replaceB3dm s)
  | .num n => .num n
  | .boolean b => .boolean b
  | .null => .null
  | .arr items => .arr (replaceB3dmList items)
  | .obj fields => .obj (replaceB3dmFields fields)

/-- Element-wise rewrite of an array's items. -/
def replaceB3dmList : List ManifestNode → List ManifestNode
  | [] => []
  | n :: rest => replaceB3dmWithGlb n :: replaceB3dmList rest

/-- Value-wise rewrite of an object's fields, keys untouched. -/
def replaceB3dmFields : List (String × ManifestNode) → List (String × ManifestNode)
  | [] => []
  | (k, v) :: rest => (k, replaceB3dmWithGlb v) :: replaceB3dmFields rest

end

/-- Concrete buffers for the C10 witness: a 30-byte container whose
`totalByteLength` field (1000) points far past the physical end, and a
28-byte container whose feature-table length (64) pushes `glbStart` past
the end. -/
def overrunBuf : List Nat :=
  writeInt32LE 98 ++ writeInt32LE 1 ++ writeInt32LE 1000 ++ writeInt32LE 0 ++
    writeInt32LE 0 ++ writeInt32LE 0 ++ writeInt32LE 0 ++ [5, 6]

def pastEndBuf : List Nat :=
  writeInt32LE 98 ++ writeInt32LE 1 ++ writeInt32LE 28 ++ writeInt32LE 64 ++
    writeInt32LE 0 ++ writeInt32LE 0 ++ writeInt32LE 0

/-- A concrete 44-byte KTX2 texture: identifier, width 513 at offset 20,
height 260 at offset 24, filler 7s from offset 28 (so the version-1 field
offsets 36/40 hold different values). -/
def ktx2Sample : List Nat :=
  KTX2_IDENTIFIER ++ [0, 0, 0, 0, 0, 0, 0, 0, 1, 2, 0, 0, 4, 1, 0, 0] ++
    List.replicate 16 7

/-- The Scenario E manifest: nested lists and mappings with exactly three
strings containing the stale `.b3dm` extension, one non-matching string,
and non-string scalars. -/
def scenEManifest : ManifestNode :=
  .obj [("asset", .obj [("version", .str "1.0".toList)]),
        ("root", .arr [.str "tiles/a.b3dm".toList, .num 3, .boolean true,
          .null,
          .obj [("uri", .str "b/c.b3dm".toList), ("scale", .num 1)],
          .str "keep.glb".toList,
          .str "d.b3dm".toList])]

/-- The Scenario D arrival sequence: five jobs, the third fails. -/
def scenDArrivals : List JobOutcome :=
  [JobOutcome.succeeded, JobOutcome.succeeded, JobOutcome.failed,
    JobOutcome.succeeded, JobOutcome.skipped]

/-- The concrete C4 witness header and tables. -/
def c4Header : B3dmHeader :=
  { magic := 98, version := 1, byteLength := 7777
    featureTableJSONByteLength := 2, featureTableBinaryByteLength := 1
    batchTableJSONByteLength := 0, batchTableBinaryByteLength := 3 }

/-- Validity of a container buffer: bytes in range, at least the 28-byte
header, non-negative table lengths fitting (with the header) inside
`totalByteLength`, and `totalByteLength` consistent with the buffer
length. -/
def ValidB3dm (b : List Nat) : Prop :=
  (∀ x ∈ b, x < 256) ∧
  28 ≤ b.length ∧
  0 ≤ readInt32LE b 12 ∧ 0 ≤ readInt32LE b 16 ∧
  0 ≤ readInt32LE b 20 ∧ 0 ≤ readInt32LE b 24 ∧
  28 + readInt32LE b 12 + readInt32LE b 16 + readInt32LE b 20 + readInt32LE b 24 ≤
    readInt32LE b 8 ∧
  readInt32LE b 8 = (b.length : Int)

/-- The concrete C3 witness container: a 40-byte valid buffer with a
2-byte feature table, a 1-byte batch table and a 9-byte payload. -/
def c3Buf : List Nat :=
  writeInt32LE 98 ++ writeInt32LE 1 ++ writeInt32LE 40 ++ writeInt32LE 2 ++
    writeInt32LE 0 ++ writeInt32LE 0 ++ writeInt32LE 1 ++
    [11, 12] ++ [13] ++ [1, 2, 3, 4, 5, 6, 7, 8, 9]

/-- The decode of `c3Buf`. -/
def c3Dec : B3dmDecoded :=
  { header :=
      { magic := 98, version := 1, byteLength := 40
        featureTableJSONByteLength := 2, featureTableBinaryByteLength := 0
        batchTableJSONByteLength := 0, batchTableBinaryByteLength := 1 }
    featureTableStart := 28, featureTableLength := 2
    batchTableStart := 30, batchTableLength := 1
    glbStart := 31
    featureTable := [11, 12], batchTable := [13]
    glbBytes := [1, 2, 3, 4, 5, 6, 7, 8, 9] }

/-- The Scenario A container: 28-byte header, `featureTableJson = 10`, the
other three table lengths 0, a 100-byte payload, `totalByteLength = 138`. -/
def scenABuf : List Nat :=
  writeInt32LE 98 ++ writeInt32LE 1 ++ writeInt32LE 138 ++ writeInt32LE 10 ++
    writeInt32LE 0 ++ writeInt32LE 0 ++ writeInt32LE 0 ++
    List.replicate 10 3 ++ List.replicate 100 7

/-- The decode of `scenABuf`. -/
def scenADec : B3dmDecoded :=
  { header :=
      { magic := 98, version := 1, byteLength := 138
        featureTableJSONByteLength := 10, featureTableBinaryByteLength := 0
        batchTableJSONByteLength := 0, batchTableBinaryByteLength := 0 }
    featureTableStart := 28, featureTableLength := 10
    batchTableStart := 38, batchTableLength := 0
    glbStart := 38
    featureTable := List.replicate 10 3, batchTable := []
    glbBytes := List.replicate 100 7 }

example :
    decodeB3dm (writeInt32LE 1 ++ writeInt32LE 1 ++ writeInt32LE 32 ++
      writeInt32LE 2 ++ writeInt32LE 0 ++ writeInt32LE 0 ++ writeInt32LE 0 ++
      [9, 9, 7, 7]) =
    some
      { header :=
          { magic := 1, version := 1, byteLength := 32
            featureTableJSONByteLength := 2, featureTableBinaryByteLength := 0
            batchTableJSONByteLength := 0, batchTableBinaryByteLength := 0 }
        featureTableStart := 28, featureTableLength := 2
        batchTableStart := 30, batchTableLength := 0
        glbStart := 30
        featureTable := [9, 9], batchTable := [], glbBytes := [7, 7] } := by
  decide

/-! ## Helper lemmas -/

theorem writeInt32LE_length (v : Int) : (writeInt32LE v).length = 4 := rfl

theorem bufConcat_self (l : List Nat) : bufConcat l l.length = l := by
  simp [bufConcat]

theorem readUInt32LE_append (l₁ l₂ : List Nat) (k : Nat) :
    readUInt32LE (l₁ ++ l₂) (l₁.length + k) = readUInt32LE l₂ k := by
  simp [readUInt32LE, List.drop_append]

theorem readUInt32LE_lt (b : List Nat) (hb : ∀ x ∈ b, x < 256) (k : Nat) :
    readUInt32LE b k < 4294967296 := by
  unfold readUInt32LE
  split
  · next b0 b1 b2 b3 _ heq =>
    have h0 : b0 < 256 := hb _ (List.mem_of_mem_drop (heq ▸ List.mem_cons_self _ _))
    have h1 : b1 < 256 := hb _ (List.mem_of_mem_drop (heq ▸ List.mem_cons_of_mem _
      (List.mem_cons_self _ _)))
    have h2 : b2 < 256 := hb _ (List.mem_of_mem_drop (heq ▸ List.mem_cons_of_mem _
      (List.mem_cons_of_mem _ (List.mem_cons_self _ _))))
    have h3 : b3 < 256 := hb _ (List.mem_of_mem_drop (heq ▸ List.mem_cons_of_mem _
      (List.mem_cons_of_mem _ (List.mem_cons_of_mem _ (List.mem_cons_self _ _)))))
    omega
  · omega

theorem readInt32LE_bounds (b : List Nat) (hb : ∀ x ∈ b, x < 256) (k : Nat) :
    -2147483648 ≤ readInt32LE b k ∧ readInt32LE b k < 2147483648 := by
  have := readUInt32LE_lt b hb k
  unfold readInt32LE toSigned32
  split <;> omega

theorem toSigned32_toNat_emod (v : Int) (h1 : -2147483648 ≤ v) (h2 : v < 2147483648) :
    toSigned32 ((v % 4294967296).toNat) = v := by
  unfold toSigned32
  split <;> omega

theorem readInt32LE_write_cons (v : Int) (l : List Nat)
    (h1 : -2147483648 ≤ v) (h2 : v < 2147483648) :
    readInt32LE (writeInt32LE v ++ l) 0 = v := by
  have hu : readUInt32LE (writeInt32LE v ++ l) 0 = (v % 4294967296).toNat := by
    simp only [writeInt32LE, readUInt32LE, List.cons_append, List.drop_zero]
    have hlt : (v % 4294967296).toNat < 4294967296 := by
      have hmod : 0 ≤ v % 4294967296 := Int.emod_nonneg v (by norm_num)
      have := Int.emod_lt_of_pos v (show (0:Int) < 4294967296 by norm_num)
      omega
    omega
  rw [readInt32LE, hu]
  exact toSigned32_toNat_emod v h1 h2

theorem readInt32LE_skip4 (w l : List Nat) (hw : w.length = 4) (k : Nat) :
    readInt32LE (w ++ l) (4 + k) = readInt32LE l k := by
  unfold readInt32LE
  rw [← hw, readUInt32LE_append]

theorem subarray_decomp (l l₁ l₂ l₃ : List Nat) (hdecomp : l = l₁ ++ (l₂ ++ l₃))
    (i j : Int) (hi : i = (l₁.length : Int)) (hj : j = i + (l₂.length : Int)) :
    subarray l i j = l₂ := by
  subst hdecomp hi hj
  simp only [subarray, List.length_append]
  have hnneg1 : ¬((l₁.length : Int) < 0) := by omega
  have hnneg2 : ¬((l₁.length : Int) + (l₂.length : Int) < 0) := by omega
  rw [if_neg hnneg1, if_neg hnneg2,
    min_eq_left (by omega), min_eq_left (by omega)]
  have h1 : ((l₁.length : Int)).toNat = l₁.length := Int.toNat_natCast _
  have h2 : ((l₁.length : Int) + (l₂.length : Int) - (l₁.length : Int)).toNat = l₂.length := by
    omega
  rw [h1, h2, List.drop_left, List.take_left]

theorem subarray_length (b : List Nat) (i j : Int) (h0 : 0 ≤ i) (hij : i ≤ j)
    (hj : j ≤ (b.length : Int)) : ((subarray b i j).length : Int) = j - i := by
  simp only [subarray]
  rw [if_neg (by omega), if_neg (by omega), min_eq_left hj, min_eq_left (by omega)]
  simp only [List.length_take, List.length_drop]
  omega

/-! ## Claim theorems -/

/-- C5 (counterexample): a 28-byte buffer whose `totalByteLength` field
(1000) is inconsistent with the buffer length (28) is decoded successfully
— the code performs no such validation, so the claim that decode fails
with `MalformedContainer` on inconsistent `totalByteLength` is false. -/
theorem c5_decode_validation_cex :
    (decodeB3dm (writeInt32LE 98 ++ writeInt32LE 1 ++ writeInt32LE 1000 ++
      writeInt32LE 0 ++ writeInt32LE 0 ++ writeInt32LE 0 ++ writeInt32LE 0)).isSome = true ∧
    readInt32LE (writeInt32LE 98 ++ writeInt32LE 1 ++ writeInt32LE 1000 ++
      writeInt32LE 0 ++ writeInt32LE 0 ++ writeInt32LE 0 ++ writeInt32LE 0) 8 ≠
      ((writeInt32LE 98 ++ writeInt32LE 1 ++ writeInt32LE 1000 ++
        writeInt32LE 0 ++ writeInt32LE 0 ++ writeInt32LE 0 ++ writeInt32LE 0).length : Int) := by
  constructor
  · decide
  · decide

/-- C5 (amended): decoding fails (the short-read throw) exactly when the
buffer holds fewer than 28 bytes; derived offsets and lengths are never
validated against the buffer, and `totalByteLength` is never checked. -/
theorem c5_decode_validation_amended (b : List Nat) :
    (decodeB3dm b).isSome = true ↔ 28 ≤ b.length := by
  unfold decodeB3dm
  split
  · next h => simp; omega
  · next h => simp; omega

/-- C6: for every decoded container, the offsets satisfy
`featureTableStart = 28`, `featureTableLength = jsonLen + binLen`,
`batchTableStart = featureTableStart + featureTableLength`,
`batchTableLength = jsonLen + binLen`,
`payloadStart (glbStart) = batchTableStart + batchTableLength`, and the
payload slice ends at `totalByteLength`. -/
theorem c6_decode_offsets (b : List Nat) (d : B3dmDecoded) (h : decodeB3dm b = some d) :
    d.featureTableStart = 28 ∧
    d.featureTableLength =
      d.header.featureTableJSONByteLength + d.header.featureTableBinaryByteLength ∧
    d.batchTableStart = d.featureTableStart + d.featureTableLength ∧
    d.batchTableLength =
      d.header.batchTableJSONByteLength + d.header.batchTableBinaryByteLength ∧
    d.glbStart = d.batchTableStart + d.batchTableLength ∧
    d.glbBytes = subarray b d.glbStart d.header.byteLength := by
  unfold decodeB3dm at h
  split at h
  · exact absurd h (by simp)
  · rw [Option.some_inj] at h
    subst h
    refine ⟨rfl, rfl, ?_, rfl, rfl, rfl⟩
    simp [readB3dmHeader]
    ring

set_option maxRecDepth 8192 in
/-- C6 witness (Scenario A): the 138-byte container with a 10-byte
feature-table JSON segment and a 100-byte payload decodes with
`payloadStart = 38`, a payload slice ending at `totalByteLength = 138`
holding the 100 payload bytes, and re-encoding with the unchanged payload
writes `totalByteLength = 138`. -/
theorem c6_decode_offsets_witness :
    decodeB3dm scenABuf = some scenADec ∧
    scenADec.featureTableStart = 28 ∧
    scenADec.glbStart = 38 ∧
    scenADec.header.byteLength = 138 ∧
    scenADec.glbBytes = subarray scenABuf scenADec.glbStart scenADec.header.byteLength ∧
    scenADec.glbBytes.length = 100 ∧
    readInt32LE (encodeB3dm scenADec.header scenADec.featureTable scenADec.batchTable
      scenADec.glbBytes) 8 = 138 := by
  have hd : decodeB3dm scenABuf = some scenADec := by decide
  have h6 := c6_decode_offsets scenABuf scenADec hd
  exact ⟨hd, h6.1, by decide, by decide, h6.2.2.2.2.2, by decide, by decide⟩

/-- C8: the plan contains the mesh-compression (`draco`) step iff mesh
compression is requested and the model is not already Draco-compressed,
and contains the texture-compression (`toktx`) step iff KTX is requested
and no texture format equals `'KTX'`; and (Scenario C) a scene already
declaring the mesh-compression extension, with mesh compression requested
again, yields a plan without the mesh-compression step. -/
theorem c8_planner_steps (stats : ModelStats) (o : CompressOptions) :
    (TransformStep.draco ∈ planTransforms stats o ↔
      (o.dracoCompression = true ∧ stats.dracoCompression = false)) ∧
    (TransformStep.toktx ∈ planTransforms stats o ↔
      (o.ktx = true ∧ stats.textureFormats.any (· == ktxFormat) = false)) ∧
    (planTransforms (getModelStatistics ⟨[dracoExtensionName], []⟩)
        ⟨true, false⟩).contains TransformStep.draco = false := by
  refine ⟨?_, ?_, by decide⟩ <;>
  · simp only [planTransforms, List.mem_append]
    rcases o with ⟨odr, okx⟩
    rcases stats with ⟨sdr, stf⟩
    cases odr <;> cases okx <;> cases sdr <;>
      cases htf : stf.any (· == ktxFormat) <;>
        simp [htf]

/-- C10: decoding is total for every buffer of at least 28 bytes — the
header fields are read without validation and the payload is obtained by a
clamping slice, so no error is signalled for inconsistent offsets or
`totalByteLength`; and the worker variant's payload slice runs from
`glbStart` to the physical end of the buffer, ignoring `totalByteLength`. -/
theorem c10_decode_total (b : List Nat) (h : 28 ≤ b.length) :
    (decodeB3dm b).isSome = true ∧
    workerGlbBytes b = some (subarray b
      (28 + readInt32LE b 12 + readInt32LE b 16 + readInt32LE b 20 + readInt32LE b 24)
      (b.length : Int)) := by
  constructor
  · unfold decodeB3dm
    rw [if_neg (by omega)]
    rfl
  · unfold workerGlbBytes
    rw [if_neg (by omega)]

/-- C10 witness: on `overrunBuf` decoding succeeds with the payload
truncated to the physically available bytes `[5, 6]` (no failure), the
worker slice also reaches the physical end, and on `pastEndBuf` the
out-of-range `glbStart` yields an empty payload rather than an error. -/
theorem c10_decode_total_witness :
    (28 ≤ overrunBuf.length ∧ (decodeB3dm overrunBuf).isSome = true ∧
      workerGlbBytes overrunBuf = some (subarray overrunBuf
        (28 + readInt32LE overrunBuf 12 + readInt32LE overrunBuf 16 +
          readInt32LE overrunBuf 20 + readInt32LE overrunBuf 24)
        (overrunBuf.length : Int))) ∧
    (∃ d, decodeB3dm overrunBuf = some d ∧ d.glbBytes = [5, 6]) ∧
    workerGlbBytes overrunBuf = some [5, 6] ∧
    (∃ d, decodeB3dm pastEndBuf = some d ∧ d.glbBytes = []) := by
  refine ⟨⟨by decide, (c10_decode_total overrunBuf (by decide)).1,
    (c10_decode_total overrunBuf (by decide)).2⟩, ?_, ?_, ?_⟩
  · exact ⟨_, rfl, by decide⟩
  · decide
  · exact ⟨_, rfl, by decide⟩

/-- C1 (counterexample): planner idempotence fails for a scene with no
textures when texture compression is requested — the `toktx` step leaves
the empty texture list empty, so the re-run plans the `toktx` step again. -/
theorem c1_planner_idempotence_cex :
    planTransforms
      (getModelStatistics (applyPlan ⟨[], []⟩
        (planTransforms (getModelStatistics ⟨[], []⟩) ⟨false, true⟩)))
      ⟨false, true⟩ ≠ [] := by
  decide

theorem textureEncoding_ktx2 :
    textureEncoding (some "image/ktx2".toList) = ktxFormat := by
  decide

theorem any_ktx_after_toktx (s : Scene) (hne : s.textures ≠ []) :
    ((getModelStatistics (applyTransform s TransformStep.toktx)).textureFormats.any
      (· == ktxFormat)) = true := by
  rcases s with ⟨exts, ts⟩
  cases ts with
  | nil => exact absurd rfl hne
  | cons t ts' =>
    have hh : (textureEncoding (some "image/ktx2".toList) == ktxFormat) = true := by decide
    simp only [getModelStatistics, applyTransform, List.map_cons, List.any_cons]
    rw [hh]
    simp

theorem draco_after_draco (s : Scene) :
    (getModelStatistics (applyTransform s TransformStep.draco)).dracoCompression = true := by
  have hh : (dracoExtensionName == dracoExtensionName) = true := by decide
  simp only [getModelStatistics, applyTransform, List.any_append, List.any_cons,
    List.any_nil]
  rw [hh]
  simp

theorem draco_pres_toktx (s : Scene) :
    (getModelStatistics (applyTransform s TransformStep.toktx)).dracoCompression =
      (getModelStatistics s).dracoCompression := rfl

theorem formats_pres_draco (s : Scene) :
    (getModelStatistics (applyTransform s TransformStep.draco)).textureFormats =
      (getModelStatistics s).textureFormats := rfl

theorem any_ktx_pres (s : Scene) (step : TransformStep) (hne : s.textures ≠ [])
    (hk : ((getModelStatistics s).textureFormats.any (· == ktxFormat)) = true) :
    ((getModelStatistics (applyTransform s step)).textureFormats.any
      (· == ktxFormat)) = true := by
  cases step with
  | toktx => exact any_ktx_after_toktx s hne
  | draco => rw [formats_pres_draco]; exact hk

/-- C1 (amended): for every scene with at least one texture whenever
texture compression is requested, re-running the planner on the state
produced by applying the first plan yields the empty plan. -/
theorem c1_planner_idempotence_amended (s : Scene) (o : CompressOptions)
    (h : o.ktx = true → s.textures ≠ []) :
    planTransforms (getModelStatistics
      (applyPlan s (planTransforms (getModelStatistics s) o))) o = [] := by
  rcases o with ⟨odr, okx⟩
  have k1 : okx = true →
      ((getModelStatistics (applyPlan s
        (planTransforms (getModelStatistics s) ⟨odr, okx⟩))).textureFormats.any
        (· == ktxFormat)) = true := by
    intro hk
    subst hk
    have hne := h rfl
    cases hktx : (getModelStatistics s).textureFormats.any (· == ktxFormat) with
    | true =>
      cases hdd : (odr && !(getModelStatistics s).dracoCompression) with
      | true =>
        have hplan : planTransforms (getModelStatistics s) ⟨odr, true⟩ =
            [TransformStep.draco] := by
          simp [planTransforms, hktx, hdd]
        rw [hplan]
        simp only [applyPlan, List.foldl_cons, List.foldl_nil]
        exact any_ktx_pres s TransformStep.draco hne hktx
      | false =>
        have hplan : planTransforms (getModelStatistics s) ⟨odr, true⟩ = [] := by
          simp [planTransforms, hktx, hdd]
        rw [hplan]
        exact hktx
    | false =>
      cases hdd : (odr && !(getModelStatistics s).dracoCompression) with
      | true =>
        have hplan : planTransforms (getModelStatistics s) ⟨odr, true⟩ =
            [TransformStep.toktx, TransformStep.draco] := by
          simp [planTransforms, hktx, hdd]
        rw [hplan]
        simp only [applyPlan, List.foldl_cons, List.foldl_nil]
        refine any_ktx_pres _ TransformStep.draco ?_ (any_ktx_after_toktx s hne)
        rcases s with ⟨exts, ts⟩
        cases ts with
        | nil => exact absurd rfl hne
        | cons t ts' => simp [applyTransform]
      | false =>
        have hplan : planTransforms (getModelStatistics s) ⟨odr, true⟩ =
            [TransformStep.toktx] := by
          simp [planTransforms, hktx, hdd]
        rw [hplan]
        simp only [applyPlan, List.foldl_cons, List.foldl_nil]
        exact any_ktx_after_toktx s hne
  have k2 : odr = true →
      (getModelStatistics (applyPlan s
        (planTransforms (getModelStatistics s) ⟨odr, okx⟩))).dracoCompression = true := by
    intro hd
    subst hd
    cases hdc : (getModelStatistics s).dracoCompression with
    | true =>
      cases hkk : (okx && !(getModelStatistics s).textureFormats.any (· == ktxFormat)) with
      | true =>
        have hplan : planTransforms (getModelStatistics s) ⟨true, okx⟩ =
            [TransformStep.toktx] := by
          simp [planTransforms, hdc, hkk]
        rw [hplan]
        simp only [applyPlan, List.foldl_cons, List.foldl_nil]
        rw [draco_pres_toktx]
        exact hdc
      | false =>
        have hplan : planTransforms (getModelStatistics s) ⟨true, okx⟩ = [] := by
          simp [planTransforms, hdc, hkk]
        rw [hplan]
        exact hdc
    | false =>
      cases hkk : (okx && !(getModelStatistics s).textureFormats.any (· == ktxFormat)) with
      | true =>
        have hplan : planTransforms (getModelStatistics s) ⟨true, okx⟩ =
            [TransformStep.toktx, TransformStep.draco] := by
          simp [planTransforms, hdc, hkk]
        rw [hplan]
        simp only [applyPlan, List.foldl_cons, List.foldl_nil]
        exact draco_after_draco _
      | false =>
        have hplan : planTransforms (getModelStatistics s) ⟨true, okx⟩ =
            [TransformStep.draco] := by
          simp [planTransforms, hdc, hkk]
        rw [hplan]
        simp only [applyPlan, List.foldl_cons, List.foldl_nil]
        exact draco_after_draco _
  have hA : (okx && !((getModelStatistics (applyPlan s
      (planTransforms (getModelStatistics s) ⟨odr, okx⟩))).textureFormats.any
        (· == ktxFormat))) = false := by
    cases hk : okx
    · simp
    · rw [hk] at k1
      rw [k1 rfl]
      simp
  have hB : (odr && !(getModelStatistics (applyPlan s
      (planTransforms (getModelStatistics s) ⟨odr, okx⟩))).dracoCompression) = false := by
    cases hd : odr
    · simp
    · rw [hd] at k2
      rw [k2 rfl]
      simp
  have hempty : ∀ st : ModelStats,
      (okx && !(st.textureFormats.any (· == ktxFormat))) = false →
      (odr && !st.dracoCompression) = false →
      planTransforms st ⟨odr, okx⟩ = [] := by
    intro st h1 h2
    simp [planTransforms, h1, h2]
  exact hempty _ hA hB

/-- C1 witness for the amended idempotence: a one-texture JPEG scene with
both options requested; the re-run plan is empty. -/
theorem c1_planner_idempotence_witness :
    planTransforms (getModelStatistics
      (applyPlan ⟨[], [⟨some "image/jpeg".toList⟩]⟩
        (planTransforms (getModelStatistics ⟨[], [⟨some "image/jpeg".toList⟩]⟩)
          ⟨true, true⟩)))
      ⟨true, true⟩ = [] :=
  c1_planner_idempotence_amended ⟨[], [⟨some "image/jpeg".toList⟩]⟩ ⟨true, true⟩
    (fun _ => by decide)

theorem identifierMatch_iff (idv : List Nat) (h12 : idv.length = 12)
    (hlt : ∀ x ∈ idv, x < 256) (b : List Nat) :
    (identifierMatch idv b = true ↔ b.take 12 = idv) := by
  constructor
  · intro hm
    have hall : ∀ i, i < 12 → b.getD i 256 = idv.getD i 256 := by
      intro i hi
      have h := (List.all_eq_true.mp hm) i (List.mem_range.mpr hi)
      simpa using h
    have hlen : 12 ≤ b.length := by
      by_contra hcon
      push_neg at hcon
      have h1 := hall b.length hcon
      rw [List.getD_eq_default _ _ (le_refl _)] at h1
      have h2 : idv.getD b.length 256 < 256 := by
        have hbl : b.length < idv.length := by omega
        rw [List.getD_eq_getElem _ _ hbl]
        exact hlt _ (List.getElem_mem hbl)
      omega
    apply List.ext_get
    · simp [List.length_take]
      omega
    · intro k h₁ h₂
      have hk : k < 12 := by
        simp [List.length_take] at h₁
        omega
      have hkb : k < b.length := by omega
      have h := hall k hk
      rw [List.getD_eq_getElem _ _ hkb, List.getD_eq_getElem _ _ (by omega : k < idv.length)]
        at h
      simpa [List.get_eq_getElem, List.getElem_take] using h
  · intro ht
    subst ht
    have hlen : 12 ≤ b.length := by
      have h := h12
      simp [List.length_take] at h
      omega
    apply List.all_eq_true.mpr
    intro i hi
    have hi' := List.mem_range.mp hi
    have hib : i < b.length := by omega
    have hit : i < (b.take 12).length := by
      simp [List.length_take]
      omega
    rw [List.getD_eq_getElem b 256 hib, List.getD_eq_getElem _ 256 hit,
      List.getElem_take]
    simp

/-- C7: the inspector classifies a texture buffer as version 1 iff its
first 12 bytes equal the KTX1 identifier and as version 2 iff they equal
the KTX2 identifier; on a version-1 match, width/height are the
little-endian uint32 fields at offsets 36/40, on a version-2 match at
offsets 20/24, and with neither identifier the parse yields no header. -/
theorem c7_ktx_versions (b : List Nat) :
    (identifierMatch KTX1_IDENTIFIER b = true ↔ b.take 12 = KTX1_IDENTIFIER) ∧
    (identifierMatch KTX2_IDENTIFIER b = true ↔ b.take 12 = KTX2_IDENTIFIER) ∧
    (b.take 12 = KTX1_IDENTIFIER → 44 ≤ b.length →
      parseKTXHeader b = .ok (some (readUInt32LE b 36, readUInt32LE b 40))) ∧
    (b.take 12 = KTX2_IDENTIFIER → 28 ≤ b.length →
      parseKTXHeader b = .ok (some (readUInt32LE b 20, readUInt32LE b 24))) ∧
    (b.take 12 ≠ KTX1_IDENTIFIER → b.take 12 ≠ KTX2_IDENTIFIER →
      parseKTXHeader b = .ok none) := by
  have h1 := identifierMatch_iff KTX1_IDENTIFIER (by decide) (by decide) b
  have h2 := identifierMatch_iff KTX2_IDENTIFIER (by decide) (by decide) b
  refine ⟨h1, h2, ?_, ?_, ?_⟩
  · intro ht hlen
    unfold parseKTXHeader
    rw [if_pos (h1.mpr ht)]
    unfold getUint32
    rw [if_pos (by omega), if_pos (by omega)]
  · intro ht hlen
    have hm1 : identifierMatch KTX1_IDENTIFIER b = false := by
      cases hmm : identifierMatch KTX1_IDENTIFIER b
      · rfl
      · have h := h1.mp hmm
        rw [ht] at h
        exact absurd h (by decide)
    unfold parseKTXHeader
    rw [if_neg (by simp [hm1]), if_pos (h2.mpr ht)]
    unfold getUint32
    rw [if_pos (by omega), if_pos (by omega)]
  · intro hn1 hn2
    have hm1 : identifierMatch KTX1_IDENTIFIER b = false := by
      cases hmm : identifierMatch KTX1_IDENTIFIER b
      · rfl
      · exact absurd (h1.mp hmm) hn1
    have hm2 : identifierMatch KTX2_IDENTIFIER b = false := by
      cases hmm : identifierMatch KTX2_IDENTIFIER b
      · rfl
      · exact absurd (h2.mp hmm) hn2
    unfold parseKTXHeader
    rw [if_neg (by simp [hm1]), if_neg (by simp [hm2])]

/-- C7 witness (Scenario B): the sample matching the version-2 identifier
is parsed with width/height read at offsets 20/24 — yielding 513 × 260 —
and those values differ from what offsets 36/40 hold. -/
theorem c7_ktx_versions_witness :
    parseKTXHeader ktx2Sample = .ok (some (513, 260)) ∧
    readUInt32LE ktx2Sample 36 ≠ 513 ∧ readUInt32LE ktx2Sample 40 ≠ 260 := by
  have h := (c7_ktx_versions ktx2Sample).2.2.2.1 (by decide) (by decide)
  have hv : readUInt32LE ktx2Sample 20 = 513 := by decide
  have hw : readUInt32LE ktx2Sample 24 = 260 := by decide
  rw [hv, hw] at h
  exact ⟨h, by decide, by decide⟩

theorem replaceB3dm_step (h : Char) (q t : List Char) (hne : (h == '.') = false)
    (hp : (h :: q).isPrefixOf (replaceB3dm t) = true) :
    ∃ t', t = h :: t' ∧ q.isPrefixOf (replaceB3dm t') = true := by
  cases t with
  | nil =>
    rw [replaceB3dm] at hp
    simp [List.isPrefixOf] at hp
  | cons c cs =>
    by_cases hbr : b3dmPat.isPrefixOf (c :: cs) = true
    · rw [replaceB3dm, if_pos hbr] at hp
      simp only [glbRepl, List.cons_append, List.nil_append,
        List.isPrefixOf_cons₂, Bool.and_eq_true] at hp
      exact absurd hp.1 (by simp [hne])
    · rw [replaceB3dm, if_neg hbr] at hp
      simp only [List.isPrefixOf_cons₂, Bool.and_eq_true] at hp
      obtain ⟨hc, hq⟩ := hp
      exact ⟨cs, by rw [eq_of_beq hc], hq⟩

theorem b3dm_tail_prefix (cs : List Char)
    (hp : (['b', '3', 'd', 'm'] : List Char).isPrefixOf (replaceB3dm cs) = true) :
    (['b', '3', 'd', 'm'] : List Char).isPrefixOf cs = true := by
  obtain ⟨t1, h1, hp1⟩ := replaceB3dm_step 'b' _ cs (by decide) hp
  obtain ⟨t2, h2, hp2⟩ := replaceB3dm_step '3' _ t1 (by decide) hp1
  obtain ⟨t3, h3, hp3⟩ := replaceB3dm_step 'd' _ t2 (by decide) hp2
  obtain ⟨t4, h4, _⟩ := replaceB3dm_step 'm' _ t3 (by decide) hp3
  subst h1 h2 h3 h4
  simp [List.isPrefixOf_cons₂, List.isPrefixOf]

theorem replaceB3dm_no_b3dm (s : List Char) :
    containsSeq b3dmPat (replaceB3dm s) = false := by
  generalize hL : s.length = L
  induction L using Nat.strong_induction_on generalizing s with
  | _ L IH =>
    cases s with
    | nil =>
      rw [replaceB3dm]
      decide
    | cons c cs =>
      by_cases hbr : b3dmPat.isPrefixOf (c :: cs) = true
      · rw [replaceB3dm, if_pos hbr]
        have hrec := IH (cs.drop 4).length
          (by subst hL; simp [List.length_drop]; omega) (cs.drop 4) rfl
        simp only [b3dmPat] at hrec
        simp [glbRepl, b3dmPat, containsSeq, List.isPrefixOf_cons₂,
          List.append_eq, hrec]
      · rw [replaceB3dm, if_neg hbr]
        have hrec := IH cs.length (by subst hL; simp) cs rfl
        simp only [containsSeq]
        rw [hrec]
        simp only [Bool.or_false]
        cases hpp : b3dmPat.isPrefixOf (c :: replaceB3dm cs)
        · rfl
        · exfalso
          have hsplit : (('.' : Char) == c) = true ∧
              (['b', '3', 'd', 'm'] : List Char).isPrefixOf (replaceB3dm cs) = true := by
            simpa [b3dmPat, List.isPrefixOf_cons₂, Bool.and_eq_true] using hpp
          obtain ⟨hc, htl⟩ := hsplit
          apply hbr
          have hcs := b3dm_tail_prefix cs htl
          rw [← eq_of_beq hc]
          simpa [b3dmPat, List.isPrefixOf_cons₂] using hcs

theorem replaceB3dm_of_not_contains (s : List Char)
    (h : containsSeq b3dmPat s = false) : replaceB3dm s = s := by
  induction s with
  | nil => rw [replaceB3dm]
  | cons c cs IH =>
    rw [containsSeq, Bool.or_eq_false_iff] at h
    obtain ⟨h1, h2⟩ := h
    rw [replaceB3dm, if_neg (by simp [h1]), IH h2]

theorem replaceB3dmList_eq_map (l : List ManifestNode) :
    replaceB3dmList l = l.map replaceB3dmWithGlb := by
  induction l with
  | nil => rw [replaceB3dmList, List.map_nil]
  | cons n rest IH => rw [replaceB3dmList, List.map_cons, IH]

theorem replaceB3dmFields_eq_map (l : List (String × ManifestNode)) :
    replaceB3dmFields l = l.map fun kv => (kv.1, replaceB3dmWithGlb kv.2) := by
  induction l with
  | nil => rw [replaceB3dmFields, List.map_nil]
  | cons kv rest IH =>
    rcases kv with ⟨k, v⟩
    rw [replaceB3dmFields, List.map_cons, IH]

/-- C9: the manifest rewriter replaces every occurrence of `.b3dm` inside
every string leaf (no occurrence survives, and occurrence-free strings are
returned unchanged), maps arrays element-wise, rewrites object fields
value-by-value preserving the key list, and passes numbers, booleans and
null through unchanged. -/
theorem c9_manifest_rewrite (s t : List Char) (items : List ManifestNode)
    (fields : List (String × ManifestNode)) (n : Int) (bv : Bool) :
    containsSeq b3dmPat (replaceB3dm s) = false ∧
    (containsSeq b3dmPat t = false → replaceB3dm t = t) ∧
    replaceB3dmWithGlb (.str s) = .str (replaceB3dm s) ∧
    replaceB3dmWithGlb (.arr items) = .arr (items.map replaceB3dmWithGlb) ∧
    replaceB3dmWithGlb (.obj fields) =
      .obj (fields.map fun kv => (kv.1, replaceB3dmWithGlb kv.2)) ∧
    (fields.map fun kv => (kv.1, replaceB3dmWithGlb kv.2)).map Prod.fst =
      fields.map Prod.fst ∧
    replaceB3dmWithGlb (.num n) = .num n ∧
    replaceB3dmWithGlb (.boolean bv) = .boolean bv ∧
    replaceB3dmWithGlb ManifestNode.null = ManifestNode.null := by
  refine ⟨replaceB3dm_no_b3dm s, replaceB3dm_of_not_contains t,
    by rw [replaceB3dmWithGlb], ?_, ?_, ?_,
    by rw [replaceB3dmWithGlb], by rw [replaceB3dmWithGlb], by rw [replaceB3dmWithGlb]⟩
  · rw [replaceB3dmWithGlb, replaceB3dmList_eq_map]
  · rw [replaceB3dmWithGlb, replaceB3dmFields_eq_map]
  · simp

/-- C9 witness (Scenario E): the rewrite replaces exactly the three stale
occurrences, leaves the non-matching string and the non-string scalars
untouched, and a non-matching string is unchanged by the theorem's
occurrence-free clause. -/
theorem c9_manifest_rewrite_witness :
    replaceB3dmWithGlb scenEManifest =
      .obj [("asset", .obj [("version", .str "1.0".toList)]),
        ("root", .arr [.str "tiles/a.glb".toList, .num 3, .boolean true,
          .null,
          .obj [("uri", .str "b/c.glb".toList), ("scale", .num 1)],
          .str "keep.glb".toList,
          .str "d.glb".toList])] ∧
    replaceB3dm "keep.glb".toList = "keep.glb".toList := by
  constructor
  · simp +decide [scenEManifest, replaceB3dmWithGlb, replaceB3dmList,
      replaceB3dmFields, replaceB3dm, b3dmPat, glbRepl]
  · exact (c9_manifest_rewrite [] "keep.glb".toList [] [] 0 false).2.1 (by decide)

theorem handleCompletion_inv (K L c : Nat) (hL : 1 ≤ L) (hcK : c < K)
    (s : SchedulerState) (o : JobOutcome)
    (h1 : s.completedTasks = min (c + L) K)
    (h2 : s.activeProcesses = min (c + L) K - c)
    (h4 : s.finished = true ↔ (c = K ∧ 1 ≤ K)) :
    (handleCompletion K L s o).completedTasks = min (c + 1 + L) K ∧
    (handleCompletion K L s o).activeProcesses = min (c + 1 + L) K - (c + 1) ∧
    (handleCompletion K L s o).results = s.results ++ [o] ∧
    ((handleCompletion K L s o).finished = true ↔ (c + 1 = K ∧ 1 ≤ K)) := by
  obtain ⟨sc, sa, sr, sf⟩ := s
  dsimp only at h1 h2 h4
  have hres : handleCompletion K L ⟨sc, sa, sr, sf⟩ o =
      if sc = K ∧ sa - 1 = 0 then ⟨sc, sa - 1, sr ++ [o], true⟩
      else if sa - 1 < L then
        ⟨sc + min (L - (sa - 1)) (K - sc), sa - 1 + min (L - (sa - 1)) (K - sc),
          sr ++ [o], sf⟩
      else ⟨sc, sa - 1, sr ++ [o], sf⟩ := rfl
  rw [hres]
  by_cases h5 : sc = K ∧ sa - 1 = 0
  · rw [if_pos h5]
    refine ⟨?_, ?_, rfl, ?_⟩
    · show sc = min (c + 1 + L) K
      omega
    · show sa - 1 = min (c + 1 + L) K - (c + 1)
      omega
    · show true = true ↔ (c + 1 = K ∧ 1 ≤ K)
      exact ⟨fun _ => by omega, fun _ => rfl⟩
  · rw [if_neg h5]
    have hroom : sa - 1 < L := by omega
    rw [if_pos hroom]
    refine ⟨?_, ?_, rfl, ?_⟩
    · show sc + min (L - (sa - 1)) (K - sc) = min (c + 1 + L) K
      omega
    · show sa - 1 + min (L - (sa - 1)) (K - sc) = min (c + 1 + L) K - (c + 1)
      omega
    · show sf = true ↔ (c + 1 = K ∧ 1 ≤ K)
      constructor
      · intro hsf
        exact absurd (h4.mp hsf).1 (by omega)
      · intro hrhs
        exact absurd (⟨by omega, by omega⟩ : sc = K ∧ sa - 1 = 0) h5

theorem processFiles_inv (K L : Nat) (hL : 1 ≤ L) :
    ∀ (rest : List JobOutcome) (c : Nat) (s : SchedulerState),
      c + rest.length ≤ K →
      s.completedTasks = min (c + L) K →
      s.activeProcesses = min (c + L) K - c →
      (s.finished = true ↔ (c = K ∧ 1 ≤ K)) →
      (rest.foldl (handleCompletion K L) s).completedTasks =
        min (c + rest.length + L) K ∧
      (rest.foldl (handleCompletion K L) s).activeProcesses =
        min (c + rest.length + L) K - (c + rest.length) ∧
      (rest.foldl (handleCompletion K L) s).results = s.results ++ rest ∧
      ((rest.foldl (handleCompletion K L) s).finished = true ↔
        (c + rest.length = K ∧ 1 ≤ K)) := by
  intro rest
  induction rest with
  | nil =>
    intro c s hle h1 h2 h4
    simpa using ⟨h1, h2, h4⟩
  | cons o rest IH =>
    intro c s hle h1 h2 h4
    rw [List.foldl_cons]
    have hcK : c < K := by
      simp only [List.length_cons] at hle
      omega
    have hstep := handleCompletion_inv K L c hL hcK s o h1 h2 h4
    have hrec := IH (c + 1) (handleCompletion K L s o)
      (by simp only [List.length_cons] at hle; omega) hstep.1 hstep.2.1 hstep.2.2.2
    refine ⟨?_, ?_, ?_, ?_⟩
    · rw [hrec.1]
      congr 1
      simp only [List.length_cons]
      omega
    · rw [hrec.2.1]
      simp only [List.length_cons]
      congr 1 <;> omega
    · rw [hrec.2.2.1, hstep.2.2.1]
      simp
    · rw [hrec.2.2.2]
      simp only [List.length_cons]
      constructor
      · intro hh
        exact ⟨by omega, hh.2⟩
      · intro hh
        exact ⟨by omega, hh.2⟩

/-- C2: for every file list of size K and concurrency limit ≥ 1, a
scheduler run records exactly K results, in arrival order — a failed job is
recorded like any other outcome and never aborts the batch — every file is
dispatched, the active count returns to 0, and completion is reported
exactly when all K files are dispatched and completed (so mid-run states
never report completion early). -/
theorem c2_scheduler_completion (K L : Nat) (arrivals : List JobOutcome)
    (hL : 1 ≤ L) (hlen : arrivals.length = K) :
    (processFiles K L arrivals).results = arrivals ∧
    (processFiles K L arrivals).completedTasks = K ∧
    (processFiles K L arrivals).activeProcesses = 0 ∧
    (1 ≤ K → (processFiles K L arrivals).finished = true) ∧
    (processFiles K L arrivals).results.count JobOutcome.failed =
      arrivals.count JobOutcome.failed ∧
    (∀ pre suf, arrivals = pre ++ suf →
      (processFiles K L pre).finished = true →
      pre.length = K ∧ (processFiles K L pre).completedTasks = K ∧
        (processFiles K L pre).activeProcesses = 0 ∧
        (processFiles K L pre).results.length = K) := by
  have hinit : ∀ rest : List JobOutcome, rest.length ≤ K →
      (processFiles K L rest).completedTasks = min (rest.length + L) K ∧
      (processFiles K L rest).activeProcesses = min (rest.length + L) K - rest.length ∧
      (processFiles K L rest).results = rest ∧
      ((processFiles K L rest).finished = true ↔ (rest.length = K ∧ 1 ≤ K)) := by
    intro rest hrl
    have h0 := processFiles_inv K L hL rest 0 (runNextBatch K L ⟨0, 0, [], false⟩)
      (by omega)
      (by simp [runNextBatch])
      (by simp [runNextBatch])
      (by simp [runNextBatch]; omega)
    unfold processFiles
    refine ⟨?_, ?_, ?_, ?_⟩
    · rw [h0.1]
      congr 1
      omega
    · rw [h0.2.1]
      congr 1 <;> omega
    · rw [h0.2.2.1]
      simp [runNextBatch]
    · rw [h0.2.2.2]
      constructor
      · intro hh
        exact ⟨by omega, hh.2⟩
      · intro hh
        exact ⟨by omega, hh.2⟩
  have hmain := hinit arrivals (by omega)
  refine ⟨hmain.2.2.1, ?_, ?_, ?_, ?_, ?_⟩
  · rw [hmain.1]
    omega
  · rw [hmain.2.1]
    omega
  · intro hK
    exact hmain.2.2.2.mpr ⟨hlen, hK⟩
  · rw [hmain.2.2.1]
  · intro pre suf heq hfin
    have hplen : pre.length ≤ K := by
      have := congrArg List.length heq
      simp at this
      omega
    have hpre := hinit pre hplen
    have hfin' := hpre.2.2.2.mp hfin
    refine ⟨hfin'.1, ?_, ?_, ?_⟩
    · rw [hpre.1]
      omega
    · rw [hpre.2.1]
      omega
    · rw [hpre.2.2.1]
      exact hfin'.1

/-- C2 witness (Scenario D): a batch of 5 files with limit 2 where job #3
fails still yields 5 results — 4 succeeded/skipped and 1 failed — the run
finishes, and all five files were dispatched. -/
theorem c2_scheduler_completion_witness :
    (processFiles 5 2 scenDArrivals).results = scenDArrivals ∧
    (processFiles 5 2 scenDArrivals).completedTasks = 5 ∧
    (processFiles 5 2 scenDArrivals).activeProcesses = 0 ∧
    (processFiles 5 2 scenDArrivals).finished = true ∧
    (processFiles 5 2 scenDArrivals).results.count JobOutcome.failed = 1 ∧
    (processFiles 5 2 scenDArrivals).results.count JobOutcome.succeeded +
      (processFiles 5 2 scenDArrivals).results.count JobOutcome.skipped = 4 := by
  have h := c2_scheduler_completion 5 2 scenDArrivals (by decide) (by decide)
  refine ⟨h.1, h.2.1, h.2.2.1, h.2.2.2.1 (by decide), ?_, ?_⟩
  · rw [h.1]
    decide
  · rw [h.1]
    decide

theorem encodeB3dm_eq (h : B3dmHeader) (ft bt glb : List Nat)
    (hft : (ft.length : Int) =
      h.featureTableJSONByteLength + h.featureTableBinaryByteLength)
    (hbt : (bt.length : Int) =
      h.batchTableJSONByteLength + h.batchTableBinaryByteLength) :
    encodeB3dm h ft bt glb =
      writeInt32LE h.magic ++ (writeInt32LE h.version ++
        (writeInt32LE (28 +
            (h.featureTableJSONByteLength + h.featureTableBinaryByteLength) +
            (h.batchTableJSONByteLength + h.batchTableBinaryByteLength) +
            (glb.length : Int)) ++
        (writeInt32LE h.featureTableJSONByteLength ++
        (writeInt32LE h.featureTableBinaryByteLength ++
        (writeInt32LE h.batchTableJSONByteLength ++
        (writeInt32LE h.batchTableBinaryByteLength ++
          (ft ++ (bt ++ glb)))))))) := by
  unfold encodeB3dm bufConcat
  dsimp only
  have hlenB : (writeInt32LE h.magic ++ writeInt32LE h.version ++
      writeInt32LE (28 +
        (h.featureTableJSONByteLength + h.featureTableBinaryByteLength) +
        (h.batchTableJSONByteLength + h.batchTableBinaryByteLength) +
        (glb.length : Int)) ++
      writeInt32LE h.featureTableJSONByteLength ++
      writeInt32LE h.featureTableBinaryByteLength ++
      writeInt32LE h.batchTableJSONByteLength ++
      writeInt32LE h.batchTableBinaryByteLength ++ ft ++ bt ++ glb).length =
      28 + ft.length + bt.length + glb.length := by
    simp [List.length_append, writeInt32LE_length]
    omega
  have htoN : (28 +
      (h.featureTableJSONByteLength + h.featureTableBinaryByteLength) +
      (h.batchTableJSONByteLength + h.batchTableBinaryByteLength) +
      (glb.length : Int)).toNat = 28 + ft.length + bt.length + glb.length := by
    omega
  rw [htoN, ← hlenB, List.take_length, Nat.sub_self]
  simp [List.append_assoc]

/-- C4: encode recomputes `totalByteLength` as 28 plus the actual side-table
and payload lengths (the header's own `byteLength` field is ignored
entirely), copies the four table-length fields unchanged, and the encoded
output satisfies
`totalByteLength = 28 + featureTableLength + batchTableLength + payloadLength`. -/
theorem c4_encode_header (h : B3dmHeader) (ft bt glb : List Nat)
    (hft : (ft.length : Int) =
      h.featureTableJSONByteLength + h.featureTableBinaryByteLength)
    (hbt : (bt.length : Int) =
      h.batchTableJSONByteLength + h.batchTableBinaryByteLength)
    (h0f : 0 ≤ h.featureTableJSONByteLength)
    (h0g : 0 ≤ h.featureTableBinaryByteLength)
    (h0j : 0 ≤ h.batchTableJSONByteLength)
    (h0k : 0 ≤ h.batchTableBinaryByteLength)
    (htot : (28 : Int) + ft.length + bt.length + glb.length < 2147483648) :
    readInt32LE (encodeB3dm h ft bt glb) 8 =
      28 + (ft.length : Int) + bt.length + glb.length ∧
    readInt32LE (encodeB3dm h ft bt glb) 12 = h.featureTableJSONByteLength ∧
    readInt32LE (encodeB3dm h ft bt glb) 16 = h.featureTableBinaryByteLength ∧
    readInt32LE (encodeB3dm h ft bt glb) 20 = h.batchTableJSONByteLength ∧
    readInt32LE (encodeB3dm h ft bt glb) 24 = h.batchTableBinaryByteLength ∧
    (∀ t : Int, encodeB3dm { h with byteLength := t } ft bt glb = encodeB3dm h ft bt glb) ∧
    readInt32LE (encodeB3dm h ft bt glb) 8 =
      28 + (readInt32LE (encodeB3dm h ft bt glb) 12 +
        readInt32LE (encodeB3dm h ft bt glb) 16) +
      (readInt32LE (encodeB3dm h ft bt glb) 20 +
        readInt32LE (encodeB3dm h ft bt glb) 24) + glb.length := by
  have hE := encodeB3dm_eq h ft bt glb hft hbt
  have hw4 : ∀ v : Int, (writeInt32LE v).length = 4 := writeInt32LE_length
  have hr8 : readInt32LE (encodeB3dm h ft bt glb) 8 =
      28 + (h.featureTableJSONByteLength + h.featureTableBinaryByteLength) +
        (h.batchTableJSONByteLength + h.batchTableBinaryByteLength) + glb.length := by
    rw [hE, show (8 : Nat) = 4 + (4 + 0) from rfl,
      readInt32LE_skip4 _ _ (hw4 _), readInt32LE_skip4 _ _ (hw4 _),
      readInt32LE_write_cons _ _ (by omega) (by omega)]
  have hr12 : readInt32LE (encodeB3dm h ft bt glb) 12 =
      h.featureTableJSONByteLength := by
    rw [hE, show (12 : Nat) = 4 + (4 + (4 + 0)) from rfl,
      readInt32LE_skip4 _ _ (hw4 _), readInt32LE_skip4 _ _ (hw4 _),
      readInt32LE_skip4 _ _ (hw4 _),
      readInt32LE_write_cons _ _ (by omega) (by omega)]
  have hr16 : readInt32LE (encodeB3dm h ft bt glb) 16 =
      h.featureTableBinaryByteLength := by
    rw [hE, show (16 : Nat) = 4 + (4 + (4 + (4 + 0))) from rfl,
      readInt32LE_skip4 _ _ (hw4 _), readInt32LE_skip4 _ _ (hw4 _),
      readInt32LE_skip4 _ _ (hw4 _), readInt32LE_skip4 _ _ (hw4 _),
      readInt32LE_write_cons _ _ (by omega) (by omega)]
  have hr20 : readInt32LE (encodeB3dm h ft bt glb) 20 =
      h.batchTableJSONByteLength := by
    rw [hE, show (20 : Nat) = 4 + (4 + (4 + (4 + (4 + 0)))) from rfl,
      readInt32LE_skip4 _ _ (hw4 _), readInt32LE_skip4 _ _ (hw4 _),
      readInt32LE_skip4 _ _ (hw4 _), readInt32LE_skip4 _ _ (hw4 _),
      readInt32LE_skip4 _ _ (hw4 _),
      readInt32LE_write_cons _ _ (by omega) (by omega)]
  have hr24 : readInt32LE (encodeB3dm h ft bt glb) 24 =
      h.batchTableBinaryByteLength := by
    rw [hE, show (24 : Nat) = 4 + (4 + (4 + (4 + (4 + (4 + 0))))) from rfl,
      readInt32LE_skip4 _ _ (hw4 _), readInt32LE_skip4 _ _ (hw4 _),
      readInt32LE_skip4 _ _ (hw4 _), readInt32LE_skip4 _ _ (hw4 _),
      readInt32LE_skip4 _ _ (hw4 _), readInt32LE_skip4 _ _ (hw4 _),
      readInt32LE_write_cons _ _ (by omega) (by omega)]
  refine ⟨by rw [hr8]; omega, hr12, hr16, hr20, hr24, fun t => rfl, ?_⟩
  rw [hr8, hr12, hr16, hr20, hr24]

/-- C4 witness: encoding 3-byte side tables and a 2-byte payload under a
header whose stale `byteLength` is 7777 writes `totalByteLength = 36`
(not 7777), copies the four table-length fields, and satisfies the header
arithmetic invariant. -/
theorem c4_encode_header_witness :
    readInt32LE (encodeB3dm c4Header [1, 2, 3] [4, 5, 6] [9, 9]) 8 = 36 ∧
    readInt32LE (encodeB3dm c4Header [1, 2, 3] [4, 5, 6] [9, 9]) 12 = 2 ∧
    readInt32LE (encodeB3dm c4Header [1, 2, 3] [4, 5, 6] [9, 9]) 16 = 1 ∧
    readInt32LE (encodeB3dm c4Header [1, 2, 3] [4, 5, 6] [9, 9]) 20 = 0 ∧
    readInt32LE (encodeB3dm c4Header [1, 2, 3] [4, 5, 6] [9, 9]) 24 = 3 ∧
    encodeB3dm { c4Header with byteLength := 0 } [1, 2, 3] [4, 5, 6] [9, 9] =
      encodeB3dm c4Header [1, 2, 3] [4, 5, 6] [9, 9] := by
  have hh := c4_encode_header c4Header [1, 2, 3] [4, 5, 6] [9, 9]
    (by decide) (by decide) (by decide) (by decide) (by decide) (by decide)
    (by norm_num)
  refine ⟨?_, hh.2.1, hh.2.2.1, hh.2.2.2.1, hh.2.2.2.2.1, hh.2.2.2.2.2.1 0⟩
  rw [hh.1]
  norm_num

theorem encodeB3dm_reads (h : B3dmHeader) (ft bt glb : List Nat)
    (hft : (ft.length : Int) =
      h.featureTableJSONByteLength + h.featureTableBinaryByteLength)
    (hbt : (bt.length : Int) =
      h.batchTableJSONByteLength + h.batchTableBinaryByteLength)
    (h0f : 0 ≤ h.featureTableJSONByteLength)
    (h0g : 0 ≤ h.featureTableBinaryByteLength)
    (h0j : 0 ≤ h.batchTableJSONByteLength)
    (h0k : 0 ≤ h.batchTableBinaryByteLength)
    (htot : (28 : Int) + ft.length + bt.length + glb.length < 2147483648) :
    readInt32LE (encodeB3dm h ft bt glb) 8 =
      28 + (h.featureTableJSONByteLength + h.featureTableBinaryByteLength) +
        (h.batchTableJSONByteLength + h.batchTableBinaryByteLength) + glb.length ∧
    readInt32LE (encodeB3dm h ft bt glb) 12 = h.featureTableJSONByteLength ∧
    readInt32LE (encodeB3dm h ft bt glb) 16 = h.featureTableBinaryByteLength ∧
    readInt32LE (encodeB3dm h ft bt glb) 20 = h.batchTableJSONByteLength ∧
    readInt32LE (encodeB3dm h ft bt glb) 24 = h.batchTableBinaryByteLength := by
  have hE := encodeB3dm_eq h ft bt glb hft hbt
  have hw4 : ∀ v : Int, (writeInt32LE v).length = 4 := writeInt32LE_length
  refine ⟨?_, ?_, ?_, ?_, ?_⟩
  · rw [hE, show (8 : Nat) = 4 + (4 + 0) from rfl,
      readInt32LE_skip4 _ _ (hw4 _), readInt32LE_skip4 _ _ (hw4 _),
      readInt32LE_write_cons _ _ (by omega) (by omega)]
  · rw [hE, show (12 : Nat) = 4 + (4 + (4 + 0)) from rfl,
      readInt32LE_skip4 _ _ (hw4 _), readInt32LE_skip4 _ _ (hw4 _),
      readInt32LE_skip4 _ _ (hw4 _),
      readInt32LE_write_cons _ _ (by omega) (by omega)]
  · rw [hE, show (16 : Nat) = 4 + (4 + (4 + (4 + 0))) from rfl,
      readInt32LE_skip4 _ _ (hw4 _), readInt32LE_skip4 _ _ (hw4 _),
      readInt32LE_skip4 _ _ (hw4 _), readInt32LE_skip4 _ _ (hw4 _),
      readInt32LE_write_cons _ _ (by omega) (by omega)]
  · rw [hE, show (20 : Nat) = 4 + (4 + (4 + (4 + (4 + 0)))) from rfl,
      readInt32LE_skip4 _ _ (hw4 _), readInt32LE_skip4 _ _ (hw4 _),
      readInt32LE_skip4 _ _ (hw4 _), readInt32LE_skip4 _ _ (hw4 _),
      readInt32LE_skip4 _ _ (hw4 _),
      readInt32LE_write_cons _ _ (by omega) (by omega)]
  · rw [hE, show (24 : Nat) = 4 + (4 + (4 + (4 + (4 + (4 + 0))))) from rfl,
      readInt32LE_skip4 _ _ (hw4 _), readInt32LE_skip4 _ _ (hw4 _),
      readInt32LE_skip4 _ _ (hw4 _), readInt32LE_skip4 _ _ (hw4 _),
      readInt32LE_skip4 _ _ (hw4 _), readInt32LE_skip4 _ _ (hw4 _),
      readInt32LE_write_cons _ _ (by omega) (by omega)]

theorem decodeB3dm_encodeB3dm (h : B3dmHeader) (ft bt glb : List Nat)
    (hft : (ft.length : Int) =
      h.featureTableJSONByteLength + h.featureTableBinaryByteLength)
    (hbt : (bt.length : Int) =
      h.batchTableJSONByteLength + h.batchTableBinaryByteLength)
    (h0f : 0 ≤ h.featureTableJSONByteLength)
    (h0g : 0 ≤ h.featureTableBinaryByteLength)
    (h0j : 0 ≤ h.batchTableJSONByteLength)
    (h0k : 0 ≤ h.batchTableBinaryByteLength)
    (htot : (28 : Int) + ft.length + bt.length + glb.length < 2147483648) :
    ∃ e, decodeB3dm (encodeB3dm h ft bt glb) = some e ∧
      e.featureTable = ft ∧ e.batchTable = bt ∧ e.glbBytes = glb := by
  have hE := encodeB3dm_eq h ft bt glb hft hbt
  have hreads := encodeB3dm_reads h ft bt glb hft hbt h0f h0g h0j h0k htot
  obtain ⟨hr8, hr12, hr16, hr20, hr24⟩ := hreads
  have hElen : (encodeB3dm h ft bt glb).length =
      28 + ft.length + bt.length + glb.length := by
    rw [hE]
    simp [List.length_append, writeInt32LE_length]
    omega
  have hdecomp1 : encodeB3dm h ft bt glb =
      (writeInt32LE h.magic ++ writeInt32LE h.version ++
        writeInt32LE (28 +
          (h.featureTableJSONByteLength + h.featureTableBinaryByteLength) +
          (h.batchTableJSONByteLength + h.batchTableBinaryByteLength) +
          (glb.length : Int)) ++
        writeInt32LE h.featureTableJSONByteLength ++
        writeInt32LE h.featureTableBinaryByteLength ++
        writeInt32LE h.batchTableJSONByteLength ++
        writeInt32LE h.batchTableBinaryByteLength) ++ (ft ++ (bt ++ glb)) := by
    rw [hE]
    simp [List.append_assoc]
  have hdecomp2 : encodeB3dm h ft bt glb =
      ((writeInt32LE h.magic ++ writeInt32LE h.version ++
        writeInt32LE (28 +
          (h.featureTableJSONByteLength + h.featureTableBinaryByteLength) +
          (h.batchTableJSONByteLength + h.batchTableBinaryByteLength) +
          (glb.length : Int)) ++
        writeInt32LE h.featureTableJSONByteLength ++
        writeInt32LE h.featureTableBinaryByteLength ++
        writeInt32LE h.batchTableJSONByteLength ++
        writeInt32LE h.batchTableBinaryByteLength) ++ ft) ++ (bt ++ glb) := by
    rw [hE]
    simp [List.append_assoc]
  have hdecomp3 : encodeB3dm h ft bt glb =
      ((writeInt32LE h.magic ++ writeInt32LE h.version ++
        writeInt32LE (28 +
          (h.featureTableJSONByteLength + h.featureTableBinaryByteLength) +
          (h.batchTableJSONByteLength + h.batchTableBinaryByteLength) +
          (glb.length : Int)) ++
        writeInt32LE h.featureTableJSONByteLength ++
        writeInt32LE h.featureTableBinaryByteLength ++
        writeInt32LE h.batchTableJSONByteLength ++
        writeInt32LE h.batchTableBinaryByteLength) ++ ft ++ bt) ++ (glb ++ []) := by
    rw [hE]
    simp [List.append_assoc]
  unfold decodeB3dm
  rw [if_neg (by omega)]
  dsimp only [readB3dmHeader]
  refine ⟨_, rfl, ?_, ?_, ?_⟩
  · rw [hr12, hr16]
    exact subarray_decomp _ _ _ _ hdecomp1 _ _
      (by simp [List.length_append, writeInt32LE_length])
      (by omega)
  · rw [hr12, hr16, hr20, hr24]
    exact subarray_decomp _ _ _ _ hdecomp2 _ _
      (by simp [List.length_append, writeInt32LE_length]; omega)
      (by omega)
  · rw [hr8, hr12, hr16, hr20, hr24]
    exact subarray_decomp _ _ _ _ hdecomp3 _ _
      (by simp [List.length_append, writeInt32LE_length]; omega)
      (by omega)

/-- C3: for every valid container buffer, re-encoding the decoded parts
with the payload unchanged yields a container that decodes to the same
feature-table bytes, batch-table bytes and payload bytes, byte for byte. -/
theorem c3_container_roundtrip (b : List Nat) (d : B3dmDecoded)
    (hv : ValidB3dm b) (hdec : decodeB3dm b = some d) :
    ∃ e, decodeB3dm (encodeB3dm d.header d.featureTable d.batchTable d.glbBytes) =
        some e ∧
      e.featureTable = d.featureTable ∧ e.batchTable = d.batchTable ∧
      e.glbBytes = d.glbBytes := by
  obtain ⟨hbytes, hblen, h012, h016, h020, h024, hsum, htotal⟩ := hv
  have hb8 := readInt32LE_bounds b hbytes 8
  have hb12 := readInt32LE_bounds b hbytes 12
  have hb16 := readInt32LE_bounds b hbytes 16
  have hb20 := readInt32LE_bounds b hbytes 20
  have hb24 := readInt32LE_bounds b hbytes 24
  unfold decodeB3dm at hdec
  rw [if_neg (by omega)] at hdec
  dsimp only [readB3dmHeader] at hdec
  rw [Option.some_inj] at hdec
  subst hdec
  have hftlen :
      ((subarray b 28 (28 + (readInt32LE b 12 + readInt32LE b 16))).length : Int) =
        readInt32LE b 12 + readInt32LE b 16 := by
    have hs := subarray_length b 28 (28 + (readInt32LE b 12 + readInt32LE b 16))
      (by omega) (by omega) (by omega)
    omega
  have hbtlen :
      ((subarray b (28 + readInt32LE b 12 + readInt32LE b 16)
        (28 + readInt32LE b 12 + readInt32LE b 16 +
          (readInt32LE b 20 + readInt32LE b 24))).length : Int) =
        readInt32LE b 20 + readInt32LE b 24 := by
    have hs := subarray_length b (28 + readInt32LE b 12 + readInt32LE b 16)
      (28 + readInt32LE b 12 + readInt32LE b 16 +
        (readInt32LE b 20 + readInt32LE b 24))
      (by omega) (by omega) (by omega)
    omega
  have hglblen :
      ((subarray b (28 + readInt32LE b 12 + readInt32LE b 16 +
          (readInt32LE b 20 + readInt32LE b 24)) (readInt32LE b 8)).length : Int) =
        readInt32LE b 8 - (28 + readInt32LE b 12 + readInt32LE b 16 +
          (readInt32LE b 20 + readInt32LE b 24)) := by
    have hs := subarray_length b
      (28 + readInt32LE b 12 + readInt32LE b 16 +
        (readInt32LE b 20 + readInt32LE b 24)) (readInt32LE b 8)
      (by omega) (by omega) (by omega)
    omega
  exact decodeB3dm_encodeB3dm _ _ _ _ (by dsimp only; omega) (by dsimp only; omega)
    (by dsimp only; omega) (by dsimp only; omega) (by dsimp only; omega)
    (by dsimp only; omega) (by dsimp only; omega)

/-- C3 witness: the round trip on the concrete valid container. -/
theorem c3_container_roundtrip_witness :
    ∃ e, decodeB3dm (encodeB3dm c3Dec.header c3Dec.featureTable c3Dec.batchTable
        c3Dec.glbBytes) = some e ∧
      e.featureTable = c3Dec.featureTable ∧ e.batchTable = c3Dec.batchTable ∧
      e.glbBytes = c3Dec.glbBytes :=
  c3_container_roundtrip c3Buf c3Dec
    (by refine ⟨by decide, by decide, by decide, by decide, by decide, by decide,
      by decide, by decide⟩)
    (by decide)

end TilesProc
